import Mathlib

/-!
Verification of the Odoo-BI-assistant-Dyad development harness.

The repository consists of a FastAPI relay proxy (`src/main.py`) and three
support modules (`src/backend/memory_manager.py`, `src/backend/observability.py`,
`src/backend/relay_api.py`).  This file gives a shallow embedding of the parts
of that code relevant to its specification and proves properties about them.

Python `dict`s with string keys are modelled as association lists in insertion
order; a dict never holds two bindings of the same key, and on such lists the
operations below agree with Python's.  The Python `None` object inside a value
of static type `Any` is modelled by `Option.none`, so a Python `Any` value
appears as `Option α`.  Stateful code is embedded by explicit state passing.
-/

namespace RelayProxy

/-- Python `d.get(k)` / `d[k]` / `k in d` on a string-keyed dict modelled as an
association list: returns the first binding of `k`, if any. -/
def pyDictGet {β : Type} : List (String × β) → String → Option β
  | [], _ => none
  | (k', v) :: rest, k => if k = k' then some v else pyDictGet rest k

/-- Python `d[k] = v`: if `k` is already bound its binding is replaced in
place (insertion order is kept), otherwise the new pair is appended. -/
def pyDictSet {β : Type} : List (String × β) → String → β → List (String × β)
  | [], k, v => [(k, v)]
  | (k', v') :: rest, k, v =>
    if k = k' then (k, v) :: rest else (k', v') :: pyDictSet rest k v

/-- A Python dict comprehension over a list of pairs: bindings are inserted
left to right, a later duplicate key overwriting the earlier value. -/
def pyDictOf {β : Type} (l : List (String × β)) : List (String × β) :=
  l.foldl (fun d p => pyDictSet d p.1 p.2) []

theorem pyDictGet_pyDictSet_self {β : Type} (d : List (String × β)) (k : String) (v : β) :
    pyDictGet (pyDictSet d k v) k = some v := by
  induction d with
  | nil => simp [pyDictSet, pyDictGet]
  | cons hd tl ih =>
    obtain ⟨k', v'⟩ := hd
    by_cases hk : k = k'
    · simp [pyDictSet, hk, pyDictGet]
    · simp [pyDictSet, hk, pyDictGet, ih]

theorem pyDictGet_pyDictSet_ne {β : Type} (d : List (String × β)) (k k' : String) (v : β)
    (h : k' ≠ k) : pyDictGet (pyDictSet d k v) k' = pyDictGet d k' := by
  induction d with
  | nil => simp [pyDictSet, pyDictGet, h]
  | cons hd tl ih =>
    obtain ⟨a, b⟩ := hd
    by_cases ha : k = a
    · subst ha
      simp [pyDictSet, pyDictGet, h]
    · by_cases ha' : k' = a
      · simp [pyDictSet, ha, pyDictGet, ha']
      · simp [pyDictSet, ha, pyDictGet, ha', ih]

theorem mem_pyDictSet {β : Type} {d : List (String × β)} {k : String} {v : β}
    {p : String × β} (hp : p ∈ pyDictSet d k v) : p ∈ d ∨ p = (k, v) := by
  induction d with
  | nil => simp [pyDictSet] at hp; exact Or.inr hp
  | cons hd tl ih =>
    obtain ⟨a, b⟩ := hd
    by_cases ha : k = a
    · simp only [pyDictSet, if_pos ha] at hp
      rcases List.mem_cons.1 hp with h' | h'
      · exact Or.inr h'
      · exact Or.inl (List.mem_cons_of_mem _ h')
    · simp only [pyDictSet, if_neg ha] at hp
      rcases List.mem_cons.1 hp with h' | h'
      · exact Or.inl (by simp [h'])
      · rcases ih h' with h'' | h''
        · exact Or.inl (List.mem_cons_of_mem _ h'')
        · exact Or.inr h''

theorem mem_of_mem_pyDictOf {β : Type} {l : List (String × β)} {p : String × β}
    (hp : p ∈ pyDictOf l) : p ∈ l := by
  have key : ∀ (l acc : List (String × β)) (p : String × β),
      p ∈ l.foldl (fun d q => pyDictSet d q.1 q.2) acc → p ∈ acc ∨ p ∈ l := by
    intro l
    induction l with
    | nil => intro acc p h; exact Or.inl h
    | cons hd tl ih =>
      intro acc p h
      rcases ih (pyDictSet acc hd.1 hd.2) p h with h' | h'
      · rcases mem_pyDictSet h' with h'' | h''
        · exact Or.inl h''
        · exact Or.inr (by simp [h''])
      · exact Or.inr (List.mem_cons_of_mem _ h')
  rcases key l [] p hp with h | h
  · simp at h
  · exact h

theorem pyDictGet_isSome_pyDictOf {β : Type} {l : List (String × β)} {k : String} {v : β}
    (hkv : (k, v) ∈ l) : (pyDictGet (pyDictOf l) k).isSome := by
  have key : ∀ (l acc : List (String × β)),
      ((pyDictGet acc k).isSome ∨ ∃ v, (k, v) ∈ l) →
      (pyDictGet (l.foldl (fun d q => pyDictSet d q.1 q.2) acc) k).isSome := by
    intro l
    induction l with
    | nil =>
      intro acc h
      rcases h with h | ⟨v, hv⟩
      · exact h
      · simp at hv
    | cons hd tl ih =>
      intro acc h
      apply ih
      by_cases hk : k = hd.1
      · subst hk
        left
        simp [pyDictGet_pyDictSet_self]
      · rcases h with h | ⟨w, hw⟩
        · left
          rwa [pyDictGet_pyDictSet_ne _ _ _ _ hk]
        · rcases List.mem_cons.1 hw with h' | h'
          · exact absurd (congrArg Prod.fst h') hk
          · exact Or.inr ⟨w, h'⟩
  exact key l [] (Or.inr ⟨v, hkv⟩)

theorem pyDictGet_eq_none_of_not_mem_keys {β : Type} {d : List (String × β)} {k : String}
    (h : ¬ k ∈ d.map Prod.fst) : pyDictGet d k = none := by
  induction d with
  | nil => rfl
  | cons hd tl ih =>
    obtain ⟨a, b⟩ := hd
    simp only [List.map_cons, List.mem_cons, not_or] at h
    simp [pyDictGet, h.1, ih h.2]

/-! ## Relay Proxy Service — `src/main.py` -/

/-- The inbound HTTP method of the `/api/execute_method` route
(`@app.api_route("/api/execute_method", methods=["OPTIONS", "POST"])`). -/
inductive Method where
  | OPTIONS
  | POST
deriving DecidableEq

/-- Hop-by-hop headers never copied from the upstream response back to the
client (`HOP_BY_HOP` in `src/main.py`, lines 70–80). -/
def HOP_BY_HOP : List String :=
  [ "connection"
  , "keep-alive"
  , "proxy-authenticate"
  , "proxy-authorization"
  , "te"
  , "trailers"
  , "transfer-encoding"
  , "upgrade"
  , "content-length"
  ]

/-- Python `s.rstrip("/")` — used on `RELAY_UPSTREAM` to build the upstream URL. -/
def pyRstripSlash (s : String) : String :=
  ⟨(s.data.reverse.dropWhile (fun c => c = '/')).reverse⟩

/-- Python `s.lower()`, character by character (header names are ASCII). -/
def pyLower (s : String) : String :=
  ⟨s.data.map Char.toLower⟩

/-- Line 115: `incoming = {k.lower(): v for k, v in request.headers.items()}` —
the inbound headers re-keyed by lower-cased name (a later duplicate wins,
as in the Python dict comprehension). -/
def normalizeHeaders (hs : List (String × String)) : List (String × String) :=
  pyDictOf (hs.map (fun p => (pyLower p.1, p.2)))

/-- Lines 116–128: the `headers_to_send` dict.  In the source it is built by
five assignments to the distinct literal keys `Origin`,
`Access-Control-Request-Method`, `Access-Control-Request-Headers`,
`Content-Type` and `X-API-Key`, each guarded by a presence (for the first
three) or truthiness (for the last two) test on the lower-cased inbound
headers; since the five keys are distinct, the resulting dict is exactly the
concatenation, in assignment order, of the singleton bindings whose guard
held.  `x_api_key` is FastAPI's extraction of the `X-API-Key` inbound header
(`x_api_key: Optional[str] = Header(None)`), and `if x_api_key:` is Python
truthiness: present and non-empty. -/
def headersToSend (incoming : List (String × String)) : List (String × String) :=
  (match pyDictGet incoming "origin" with
    | some v => [("Origin", v)]
    | none => []) ++
  (match pyDictGet incoming "access-control-request-method" with
    | some v => [("Access-Control-Request-Method", v)]
    | none => []) ++
  (match pyDictGet incoming "access-control-request-headers" with
    | some v => [("Access-Control-Request-Headers", v)]
    | none => []) ++
  (match pyDictGet incoming "content-type" with
    | some v => if v = "" then [] else [("Content-Type", v)]
    | none => []) ++
  (match pyDictGet incoming "x-api-key" with
    | some v => if v = "" then [] else [("X-API-Key", v)]
    | none => [])

/-- The request the proxy issues to the upstream relay: URL, forwarded
headers, body (`None` for OPTIONS, the raw inbound body for POST) and the
timeout in seconds (10.0 for OPTIONS, 30.0 for POST in the source). -/
structure OutboundRequest where
  url : String
  headers : List (String × String)
  body : Option (List Nat)
  timeout : Nat
deriving DecidableEq

/-- The upstream HTTP response (`resp` in the source): status code, headers
as yielded by `resp.headers.items()`, and body bytes. -/
structure UpstreamResponse where
  status_code : Nat
  headers : List (String × String)
  content : List Nat
deriving DecidableEq

/-- A transport-level failure of the upstream call (`httpx.HTTPError`). -/
structure HttpxError where
  msg : String
deriving DecidableEq

/-- `fastapi.HTTPException(status_code=..., detail=...)`. -/
structure HTTPExceptionModel where
  status_code : Nat
  detail : String
deriving DecidableEq

/-- The `Response(status_code=..., headers=..., content=...)` returned to the
client on success. -/
structure ProxyResponse where
  status_code : Nat
  headers : List (String × String)
  content : List Nat
deriving DecidableEq

/-- Lines 139–140 and 149: `out_headers = {k: v for k, v in
resp.headers.items() if k.lower() not in HOP_BY_HOP}`. -/
def filterHopByHop (hs : List (String × String)) : List (String × String) :=
  pyDictOf (hs.filter (fun p => decide (¬ pyLower p.1 ∈ HOP_BY_HOP)))

/-- Lines 112–135/145: the outbound request built by `proxy_execute_method`
before calling `client.options` / `client.post`.  `headers_to_send` is built
once, before the branch on the method, so it does not depend on the method. -/
def outboundRequest (relay_upstream : String) (method : Method)
    (inboundHeaders : List (String × String)) (body : List Nat) : OutboundRequest :=
  let upstream_url := pyRstripSlash relay_upstream ++ "/api/execute_method"
  let incoming := normalizeHeaders inboundHeaders
  let headers_to_send := headersToSend incoming
  match method with
  | .OPTIONS => ⟨upstream_url, headers_to_send, none, 10⟩
  | .POST => ⟨upstream_url, headers_to_send, some body, 30⟩

/-- Lines 106–150: the `/api/execute_method` handler.  The network call is
abstracted as a `transport` function from the outbound request to either an
`httpx.HTTPError` or an upstream response; the handler makes exactly one such
call.  On transport failure it raises `HTTPException(502, "Upstream OPTIONS
failed")` or `HTTPException(502, "Upstream POST failed")` according to the
inbound method; on success it returns the upstream status code and body with
the hop-by-hop-filtered upstream headers. -/
def proxy_execute_method (relay_upstream : String) (method : Method)
    (inboundHeaders : List (String × String)) (body : List Nat)
    (transport : OutboundRequest → Except HttpxError UpstreamResponse) :
    Except HTTPExceptionModel ProxyResponse :=
  match transport (outboundRequest relay_upstream method inboundHeaders body) with
  | .error _ =>
    .error ⟨502, match method with
                 | .OPTIONS => "Upstream OPTIONS failed"
                 | .POST => "Upstream POST failed"⟩
  | .ok resp => .ok ⟨resp.status_code, filterHopByHop resp.headers, resp.content⟩

/-- Lines 26–28 of `src/main.py`:

    RELAY_UPSTREAM = os.getenv("RELAY_UPSTREAM")
    if not RELAY_UPSTREAM:
        raise RuntimeError("RELAY_UPSTREAM must be set for proxy mode (e.g. http://localhost:8001)")

`os.getenv` yields `None` when the variable is unset; `not RELAY_UPSTREAM`
is Python truthiness, so both `None` and the empty string raise.  The raised
`RuntimeError` is modelled as `Except.error` of its message, a successful
module initialization as `Except.ok` of the configured value. -/
def relayUpstreamStartup (env : Option String) : Except String String :=
  match env with
  | none => .error "RELAY_UPSTREAM must be set for proxy mode (e.g. http://localhost:8001)"
  | some s =>
    if s = "" then
      .error "RELAY_UPSTREAM must be set for proxy mode (e.g. http://localhost:8001)"
    else .ok s

/-- The five header names that can ever appear in `headers_to_send`. -/
def FORWARD_HEADER_ALLOWLIST : List String :=
  [ "Origin"
  , "Access-Control-Request-Method"
  , "Access-Control-Request-Headers"
  , "Content-Type"
  , "X-API-Key"
  ]

/-! ## CORS origin list — `src/main.py`, lines 36–52 -/

/-- Python's whitespace characters stripped by `str.strip()` (the ASCII ones;
origins are ASCII). -/
def pyIsSpace (c : Char) : Bool :=
  c = ' ' ∨ c = '\t' ∨ c = '\n' ∨ c = '\r' ∨ c = '\x0b' ∨ c = '\x0c'

/-- Python `s.strip()`: drop leading and trailing whitespace. -/
def pyStrip (s : String) : String :=
  ⟨((s.data.dropWhile pyIsSpace).reverse.dropWhile pyIsSpace).reverse⟩

/-- Helper for `pySplitComma`: split a character list at every comma,
`cur` holding the (reversed) characters of the current field. -/
def pySplitCommaGo : List Char → List Char → List String
  | [], cur => [⟨cur.reverse⟩]
  | c :: cs, cur =>
    if c = ',' then ⟨cur.reverse⟩ :: pySplitCommaGo cs [] else pySplitCommaGo cs (c :: cur)

/-- Python `s.split(",")`: the fields between commas, in order; the empty
string yields `[""]`, and empty fields are kept. -/
def pySplitComma (s : String) : List String :=
  pySplitCommaGo s.data []

/-- The five hard-coded fallback origins appended at lines 44–50. -/
def DEFAULT_LOCAL_ORIGINS : List String :=
  [ "http://localhost:3000"
  , "http://localhost:5173"
  , "http://localhost:8000"
  , "http://localhost:8080"
  , "http://localhost:32100"
  ]

/-- Loop body of lines 38–41: `p = part.strip(); if p and p not in
ALLOWED_ORIGINS: ALLOWED_ORIGINS.append(p)` (the strip is applied by the
caller). -/
def appendOrigin (acc : List String) (p : String) : List String :=
  if p ≠ "" ∧ ¬ p ∈ acc then acc ++ [p] else acc

/-- Loop body of lines 44–52: `if fallback not in ALLOWED_ORIGINS:
ALLOWED_ORIGINS.append(fallback)`. -/
def appendFallback (acc : List String) (f : String) : List String :=
  if ¬ f ∈ acc then acc ++ [f] else acc

/-- The list built from the environment value by the first loop
(lines 37–41): split on commas, strip, skip empties and duplicates. -/
def envOrigins (frontend_origin : String) : List String :=
  ((pySplitComma frontend_origin).map pyStrip).foldl appendOrigin []

/-- `ALLOWED_ORIGINS` as built at startup from the `FRONTEND_ORIGIN`
environment value (lines 36–52): the de-duplicated environment entries
followed by whichever of the five fallbacks are still missing. -/
def ALLOWED_ORIGINS (frontend_origin : String) : List String :=
  DEFAULT_LOCAL_ORIGINS.foldl appendFallback (envOrigins frontend_origin)

/-- First-occurrence de-duplication, written from the specification's words
for the claim that the environment entries appear "trimmed, in
first-occurrence order": keep the first occurrence of each element. -/
def specFirstDedup : List String → List String
  | [] => []
  | x :: xs => x :: (specFirstDedup xs).filter (fun y => y ≠ x)

/-! ## Observability — `src/backend/observability.py` -/

/-- The process-wide `_metrics` dict: two integer counters.  Python integers
are unbounded, so the fields are `Int`; the mutex only serialises access and
does not affect the sequential semantics embedded here. -/
structure Metrics where
  api_calls_total : Int
  ws_connections_total : Int
deriving DecidableEq

/-- The initial `_metrics` state (both counters zero). -/
def initialMetrics : Metrics := ⟨0, 0⟩

/-- `increment_api_calls(amount)`: `_metrics["api_calls_total"] += int(amount)`
(`int` on an `int` is the identity; the Python default for `amount` is 1). -/
def increment_api_calls (m : Metrics) (amount : Int) : Metrics :=
  ⟨m.api_calls_total + amount, m.ws_connections_total⟩

/-- `increment_ws_connections(amount)`:
`_metrics["ws_connections_total"] += int(amount)`. -/
def increment_ws_connections (m : Metrics) (amount : Int) : Metrics :=
  ⟨m.api_calls_total, m.ws_connections_total + amount⟩

/-- Python `sep.join(parts)`. -/
def pyJoin (sep : String) : List String → String
  | [] => ""
  | [x] => x
  | x :: xs => x ++ sep ++ pyJoin sep xs

/-- `get_metrics_text()`: `"\n".join(lines)` over the fixed eight-entry
`lines` list (`src/backend/observability.py`, lines 24–40); Python's
`f"... {n}"` renders the integer exactly as `toString` on `Int` does. -/
def get_metrics_text (m : Metrics) : String :=
  pyJoin "\n"
    [ "# HELP relay_api_calls_total Number of /api/execute_method calls received"
    , "# TYPE relay_api_calls_total counter"
    , "relay_api_calls_total " ++ toString m.api_calls_total
    , ""
    , "# HELP relay_ws_connections_total Number of WebSocket connections accepted"
    , "# TYPE relay_ws_connections_total counter"
    , "relay_ws_connections_total " ++ toString m.ws_connections_total
    , ""
    ]

/-- One call to either increment helper, with the amount the caller passed
(the Python default is 1, but any `int` is accepted). -/
inductive MetricsOp where
  | incApi (amount : Int)
  | incWs (amount : Int)
deriving DecidableEq

/-- Apply one increment call to the metrics state. -/
def applyMetricsOp (m : Metrics) : MetricsOp → Metrics
  | .incApi a => increment_api_calls m a
  | .incWs a => increment_ws_connections m a

/-- Run a sequence of increment calls from a given state. -/
def runMetricsOps (m : Metrics) (ops : List MetricsOp) : Metrics :=
  ops.foldl applyMetricsOp m

/-- The amount carried by an increment call. -/
def metricsOpAmount : MetricsOp → Int
  | .incApi a => a
  | .incWs a => a

/-! ## Memory Manager — `src/backend/memory_manager.py`

`_store` is `Dict[str, Any]`; a stored Python value of static type `Any` is
modelled as `Option α` with `Option.none` standing for Python's `None`. -/

/-- The `MemoryManager` class: a process-local dict from string keys to
arbitrary (possibly `None`) values. -/
structure MemoryManager (α : Type) where
  store : List (String × Option α)
deriving DecidableEq

/-- `MemoryManager()`: starts with an empty store. -/
def MemoryManager.empty (α : Type) : MemoryManager α := ⟨[]⟩

/-- `set(key, value)`: `self._store[key] = value`. -/
def MemoryManager.set {α : Type} (m : MemoryManager α) (key : String) (value : Option α) :
    MemoryManager α :=
  ⟨pyDictSet m.store key value⟩

/-- `get(key, default)`: `self._store.get(key, default)` (the Python default
for `default` is `None`). -/
def MemoryManager.get {α : Type} (m : MemoryManager α) (key : String) (default : Option α) :
    Option α :=
  (pyDictGet m.store key).getD default

/-- `delete(key)`: `return self._store.pop(key, None) is not None`.  `pop`
removes the binding of `key` (if any) and yields the stored value, or the
`None` default when the key is absent; the method's result is the `is not
None` test on that popped value.  The pair returned here is (result, state
after the call). -/
def MemoryManager.delete {α : Type} (m : MemoryManager α) (key : String) :
    Bool × MemoryManager α :=
  let popped : Option α := (pyDictGet m.store key).getD none
  (popped.isSome, ⟨m.store.filter (fun p => decide (p.1 ≠ key))⟩)

/-- `clear()`: `self._store.clear()`. -/
def MemoryManager.clear {α : Type} (_m : MemoryManager α) : MemoryManager α := ⟨[]⟩

/-- `keys()`: `list(self._store.keys())`, in insertion order. -/
def MemoryManager.keys {α : Type} (m : MemoryManager α) : List String :=
  m.store.map Prod.fst

/-! ## Relay-API helper — `src/backend/relay_api.py`

The source operates on the lazily created shared `MemoryManager` instance
returned by `get_memory_manager()`; the embedding passes that instance's
state explicitly. -/

/-- The derived key `f"agent:{agent_id}:state"`. -/
def agent_state_key (agent_id : String) : String :=
  "agent:" ++ agent_id ++ ":state"

/-- `store_agent_state(agent_id, data)`: `mm.set(f"agent:{agent_id}:state",
data)`.  `data` is a structured record (a dict), hence not `None`, so it is
stored as `some data`. -/
def store_agent_state {α : Type} (m : MemoryManager α) (agent_id : String) (data : α) :
    MemoryManager α :=
  m.set (agent_state_key agent_id) (some data)

/-- `load_agent_state(agent_id)`: `mm.get(f"agent:{agent_id}:state")` with the
default `None`. -/
def load_agent_state {α : Type} (m : MemoryManager α) (agent_id : String) : Option α :=
  m.get (agent_state_key agent_id) none

/-! ## Helper lemmas -/

theorem MemoryManager.get_set_self {α : Type} (m : MemoryManager α) (k : String)
    (v d : Option α) : (m.set k v).get k d = v := by
  simp [MemoryManager.set, MemoryManager.get, pyDictGet_pyDictSet_self]

theorem MemoryManager.get_set_ne {α : Type} (m : MemoryManager α) (k k' : String)
    (v d : Option α) (h : k' ≠ k) : (m.set k v).get k' d = m.get k' d := by
  simp [MemoryManager.set, MemoryManager.get, pyDictGet_pyDictSet_ne _ _ _ _ h]

theorem agent_state_key_inj (a1 a2 : String)
    (h : agent_state_key a1 = agent_state_key a2) : a1 = a2 := by
  have hd : (agent_state_key a1).data = (agent_state_key a2).data := by rw [h]
  simp only [agent_state_key, String.data_append, List.append_assoc] at hd
  exact String.ext (List.append_cancel_right (List.append_cancel_left hd))

theorem filter_comm_of_filter (S : List String) (p q : String → Bool) :
    (S.filter p).filter q = (S.filter q).filter p := by
  rw [List.filter_filter, List.filter_filter]
  exact List.filter_congr (fun a _ => Bool.and_comm (q a) (p a))

theorem specFirstDedup_filter (p : String → Bool) (l : List String) :
    specFirstDedup (l.filter p) = (specFirstDedup l).filter p := by
  induction l with
  | nil => rfl
  | cons x xs ih =>
    by_cases hp : p x = true
    · rw [List.filter_cons_of_pos hp]
      show x :: (specFirstDedup (xs.filter p)).filter (fun y => y ≠ x) = _
      rw [ih, specFirstDedup, List.filter_cons_of_pos hp]
      exact congrArg (x :: ·) (filter_comm_of_filter _ _ _)
    · have hp' : p x = false := Bool.eq_false_iff.2 hp
      rw [List.filter_cons_of_neg (by simp [hp']), specFirstDedup,
        List.filter_cons_of_neg (by simp [hp']), ih, filter_comm_of_filter]
      symm
      apply List.filter_eq_self.2
      intro y hy
      have hyp : p y = true := (List.mem_filter.1 hy).2
      have hyx : y ≠ x := fun h => by rw [h, hp'] at hyp; exact Bool.false_ne_true hyp
      simpa using hyx

theorem specFirstDedup_nodup (l : List String) : (specFirstDedup l).Nodup := by
  induction l with
  | nil => exact List.nodup_nil
  | cons x xs ih =>
    rw [specFirstDedup]
    apply List.nodup_cons.2
    constructor
    · intro hx
      have := (List.mem_filter.1 hx).2
      simp at this
    · exact ih.filter _

theorem specFirstDedup_of_nodup (l : List String) (h : l.Nodup) : specFirstDedup l = l := by
  induction l with
  | nil => rfl
  | cons x xs ih =>
    rw [specFirstDedup, ih (List.nodup_cons.1 h).2]
    have hx : ¬ x ∈ xs := (List.nodup_cons.1 h).1
    rw [List.filter_eq_self.2 (fun y hy => by
      simpa using fun hyx : y = x => hx (hyx ▸ hy))]

theorem foldl_appendFallback (l : List String) :
    ∀ acc : List String,
      l.foldl appendFallback acc =
        acc ++ specFirstDedup (l.filter (fun p => decide (¬ p ∈ acc))) := by
  induction l with
  | nil => intro acc; simp [specFirstDedup]
  | cons x xs ih =>
    intro acc
    by_cases hx : x ∈ acc
    · have hstep : appendFallback acc x = acc := by simp [appendFallback, hx]
      rw [List.foldl_cons, hstep, ih acc,
        List.filter_cons_of_neg (by simp [hx])]
    · have hstep : appendFallback acc x = acc ++ [x] := by simp [appendFallback, hx]
      rw [List.foldl_cons, hstep, ih (acc ++ [x]),
        List.filter_cons_of_pos (by simp [hx])]
      rw [specFirstDedup, List.append_assoc, List.singleton_append]
      congr 2
      have hpred : xs.filter (fun p => decide (¬ p ∈ acc ++ [x])) =
          (xs.filter (fun p => decide (¬ p ∈ acc))).filter (fun p => decide (p ≠ x)) := by
        rw [List.filter_filter]
        apply List.filter_congr
        intro a _
        simp [List.mem_append, not_or, And.comm]
      rw [hpred, specFirstDedup_filter]

theorem foldl_appendOrigin (l : List String) :
    ∀ acc : List String,
      l.foldl appendOrigin acc =
        (l.filter (fun p => decide (p ≠ ""))).foldl appendFallback acc := by
  induction l with
  | nil => intro acc; rfl
  | cons x xs ih =>
    intro acc
    by_cases hx : x = ""
    · subst hx
      have hstep : appendOrigin acc "" = acc := by simp [appendOrigin]
      rw [List.foldl_cons, hstep, ih acc, List.filter_cons_of_neg (by simp)]
    · have hstep : appendOrigin acc x = appendFallback acc x := by
        simp [appendOrigin, appendFallback, hx]
      rw [List.foldl_cons, hstep, ih (appendFallback acc x),
        List.filter_cons_of_pos (by simp [hx]), List.foldl_cons]

theorem runMetricsOps_le (ops : List MetricsOp) :
    ∀ m : Metrics, (∀ op ∈ ops, 0 ≤ metricsOpAmount op) →
      m.api_calls_total ≤ (runMetricsOps m ops).api_calls_total ∧
      m.ws_connections_total ≤ (runMetricsOps m ops).ws_connections_total := by
  induction ops with
  | nil => intro m _; exact ⟨le_refl _, le_refl _⟩
  | cons op rest ih =>
    intro m h
    have h0 : 0 ≤ metricsOpAmount op := h op (List.mem_cons_self _ _)
    have hrest := ih (applyMetricsOp m op) (fun o ho => h o (List.mem_cons_of_mem _ ho))
    have hrun : runMetricsOps m (op :: rest) = runMetricsOps (applyMetricsOp m op) rest := by
      simp [runMetricsOps]
    rw [hrun]
    have step : m.api_calls_total ≤ (applyMetricsOp m op).api_calls_total ∧
        m.ws_connections_total ≤ (applyMetricsOp m op).ws_connections_total := by
      cases op <;>
        simp only [applyMetricsOp, increment_api_calls, increment_ws_connections,
          metricsOpAmount] at h0 ⊢ <;>
        omega
    exact ⟨le_trans step.1 hrest.1, le_trans step.2 hrest.2⟩

/-! ## Claim theorems -/

/-- C1: whenever the upstream transport yields a response, the proxy returns
the upstream's status code and body unchanged, its response headers contain
no header whose lower-cased name is in HOP_BY_HOP (even if the upstream
included such headers), every returned header is one of the upstream's, and
every upstream header outside the HOP_BY_HOP set survives under its name. -/
theorem proxy_response_header_hygiene (relay_upstream : String) (m : Method)
    (hs : List (String × String)) (b : List Nat) (resp : UpstreamResponse)
    (r : ProxyResponse)
    (h : proxy_execute_method relay_upstream m hs b (fun _ => .ok resp) = .ok r) :
    r.status_code = resp.status_code ∧
    r.content = resp.content ∧
    (∀ p ∈ r.headers, ¬ pyLower p.1 ∈ HOP_BY_HOP) ∧
    (∀ p ∈ r.headers, p ∈ resp.headers) ∧
    (∀ p ∈ resp.headers, ¬ pyLower p.1 ∈ HOP_BY_HOP →
      (pyDictGet r.headers p.1).isSome) := by
  have hr : r = ⟨resp.status_code, filterHopByHop resp.headers, resp.content⟩ := by
    cases m <;> simp only [proxy_execute_method, Except.ok.injEq] at h <;> exact h.symm
  subst hr
  refine ⟨rfl, rfl, ?_, ?_, ?_⟩
  · intro p hp
    have hmem := List.mem_filter.1 (mem_of_mem_pyDictOf hp)
    simpa using hmem.2
  · intro p hp
    exact (List.mem_filter.1 (mem_of_mem_pyDictOf hp)).1
  · intro p hp hnot
    apply pyDictGet_isSome_pyDictOf (v := p.2)
    apply List.mem_filter.2
    exact ⟨by simpa using hp, by simpa using hnot⟩

/-- Witness for C1: a concrete upstream response carrying a hop-by-hop
`Transfer-Encoding` header comes back with status and body unchanged and
every remaining header outside the HOP_BY_HOP set. -/
theorem proxy_response_header_hygiene_witness :
    (⟨200, [("Content-Type", "application/json")], [123]⟩ : ProxyResponse).status_code =
      (⟨200, [("Content-Type", "application/json"), ("Transfer-Encoding", "chunked")],
        [123]⟩ : UpstreamResponse).status_code ∧
    ∀ p ∈ (⟨200, [("Content-Type", "application/json")], [123]⟩ : ProxyResponse).headers,
      ¬ pyLower p.1 ∈ HOP_BY_HOP :=
  ⟨(proxy_response_header_hygiene "http://up" .POST [] [123]
      ⟨200, [("Content-Type", "application/json"), ("Transfer-Encoding", "chunked")], [123]⟩
      ⟨200, [("Content-Type", "application/json")], [123]⟩ (by rfl)).1,
   (proxy_response_header_hygiene "http://up" .POST [] [123]
      ⟨200, [("Content-Type", "application/json"), ("Transfer-Encoding", "chunked")], [123]⟩
      ⟨200, [("Content-Type", "application/json")], [123]⟩ (by rfl)).2.2.1⟩

/-- C2: the proxy answers 502 with detail "Upstream OPTIONS failed" (for an
inbound OPTIONS) or "Upstream POST failed" (for an inbound POST) exactly when
the single upstream transport attempt fails, with the fixed detail message
regardless of the particular transport error; when the transport succeeds it
returns the forwarded upstream response instead. -/
theorem proxy_bad_gateway_on_transport_failure (relay_upstream : String)
    (hs : List (String × String)) (b : List Nat)
    (u : Except HttpxError UpstreamResponse) :
    ((∃ e, u = .error e) ↔
      proxy_execute_method relay_upstream .OPTIONS hs b (fun _ => u) =
        .error ⟨502, "Upstream OPTIONS failed"⟩) ∧
    ((∃ e, u = .error e) ↔
      proxy_execute_method relay_upstream .POST hs b (fun _ => u) =
        .error ⟨502, "Upstream POST failed"⟩) ∧
    (∀ resp : UpstreamResponse, ∀ m : Method,
      proxy_execute_method relay_upstream m hs b (fun _ => .ok resp) =
        .ok ⟨resp.status_code, filterHopByHop resp.headers, resp.content⟩) := by
  refine ⟨?_, ?_, ?_⟩
  · cases u <;> simp [proxy_execute_method]
  · cases u <;> simp [proxy_execute_method]
  · intro resp m
    cases m <;> rfl

/-- Witness for C2: a concrete transport failure yields the two
method-specific 502 responses. -/
theorem proxy_bad_gateway_on_transport_failure_witness :
    proxy_execute_method "http://up" .OPTIONS [] []
        (fun _ => .error ⟨"connection refused"⟩) =
      .error ⟨502, "Upstream OPTIONS failed"⟩ ∧
    proxy_execute_method "http://up" .POST [] []
        (fun _ => .error ⟨"connection refused"⟩) =
      .error ⟨502, "Upstream POST failed"⟩ :=
  ⟨(proxy_bad_gateway_on_transport_failure "http://up" [] []
      (.error ⟨"connection refused"⟩)).1.mp ⟨⟨"connection refused"⟩, rfl⟩,
   (proxy_bad_gateway_on_transport_failure "http://up" [] []
      (.error ⟨"connection refused"⟩)).2.1.mp ⟨⟨"connection refused"⟩, rfl⟩⟩

/-- C3: for either inbound method, every header of the outbound upstream
request has a name in the fixed allow-list (Origin,
Access-Control-Request-Method, Access-Control-Request-Headers, Content-Type,
X-API-Key) and carries the value of the inbound header of that (lower-cased)
name — so no other inbound header, e.g. Cookie or Authorization, is ever
forwarded; and a present, non-empty inbound X-API-Key is forwarded. -/
theorem outbound_headers_allowlisted (relay_upstream : String) (m : Method)
    (hs : List (String × String)) (b : List Nat) :
    (∀ p ∈ (outboundRequest relay_upstream m hs b).headers,
      p.1 ∈ FORWARD_HEADER_ALLOWLIST ∧
      pyDictGet (normalizeHeaders hs) (pyLower p.1) = some p.2) ∧
    (∀ v, pyDictGet (normalizeHeaders hs) "x-api-key" = some v → v ≠ "" →
      ("X-API-Key", v) ∈ (outboundRequest relay_upstream m hs b).headers) := by
  have hh : (outboundRequest relay_upstream m hs b).headers =
      headersToSend (normalizeHeaders hs) := by
    cases m <;> rfl
  rw [hh]
  constructor
  · intro p hp
    unfold headersToSend at hp
    simp only [List.mem_append] at hp
    rcases hp with ((((h1 | h2) | h3) | h4) | h5)
    · rcases hor : pyDictGet (normalizeHeaders hs) "origin" with _ | v
      · rw [hor] at h1
        exact absurd h1 (List.not_mem_nil p)
      · rw [hor] at h1
        have hpv : p = ("Origin", v) := List.mem_singleton.1 h1
        subst hpv
        refine ⟨by simp [FORWARD_HEADER_ALLOWLIST], ?_⟩
        show pyDictGet (normalizeHeaders hs) (pyLower "Origin") = some v
        rw [show pyLower "Origin" = "origin" from by decide, hor]
    · rcases hor : pyDictGet (normalizeHeaders hs) "access-control-request-method"
          with _ | v
      · rw [hor] at h2
        exact absurd h2 (List.not_mem_nil p)
      · rw [hor] at h2
        have hpv : p = ("Access-Control-Request-Method", v) := List.mem_singleton.1 h2
        subst hpv
        refine ⟨by simp [FORWARD_HEADER_ALLOWLIST], ?_⟩
        show pyDictGet (normalizeHeaders hs) (pyLower "Access-Control-Request-Method") =
          some v
        rw [show pyLower "Access-Control-Request-Method" =
          "access-control-request-method" from by decide, hor]
    · rcases hor : pyDictGet (normalizeHeaders hs) "access-control-request-headers"
          with _ | v
      · rw [hor] at h3
        exact absurd h3 (List.not_mem_nil p)
      · rw [hor] at h3
        have hpv : p = ("Access-Control-Request-Headers", v) := List.mem_singleton.1 h3
        subst hpv
        refine ⟨by simp [FORWARD_HEADER_ALLOWLIST], ?_⟩
        show pyDictGet (normalizeHeaders hs) (pyLower "Access-Control-Request-Headers") =
          some v
        rw [show pyLower "Access-Control-Request-Headers" =
          "access-control-request-headers" from by decide, hor]
    · rcases hor : pyDictGet (normalizeHeaders hs) "content-type" with _ | v
      · rw [hor] at h4
        exact absurd h4 (List.not_mem_nil p)
      · rw [hor] at h4
        have h4' : p ∈ (if v = "" then [] else [("Content-Type", v)]) := h4
        by_cases hv : v = ""
        · rw [if_pos hv] at h4'
          exact absurd h4' (List.not_mem_nil p)
        · rw [if_neg hv] at h4'
          have hpv : p = ("Content-Type", v) := List.mem_singleton.1 h4'
          subst hpv
          refine ⟨by simp [FORWARD_HEADER_ALLOWLIST], ?_⟩
          show pyDictGet (normalizeHeaders hs) (pyLower "Content-Type") = some v
          rw [show pyLower "Content-Type" = "content-type" from by decide, hor]
    · rcases hor : pyDictGet (normalizeHeaders hs) "x-api-key" with _ | v
      · rw [hor] at h5
        exact absurd h5 (List.not_mem_nil p)
      · rw [hor] at h5
        have h5' : p ∈ (if v = "" then [] else [("X-API-Key", v)]) := h5
        by_cases hv : v = ""
        · rw [if_pos hv] at h5'
          exact absurd h5' (List.not_mem_nil p)
        · rw [if_neg hv] at h5'
          have hpv : p = ("X-API-Key", v) := List.mem_singleton.1 h5'
          subst hpv
          refine ⟨by simp [FORWARD_HEADER_ALLOWLIST], ?_⟩
          show pyDictGet (normalizeHeaders hs) (pyLower "X-API-Key") = some v
          rw [show pyLower "X-API-Key" = "x-api-key" from by decide, hor]
  · intro v hv hne
    unfold headersToSend
    rw [hv]
    simp [List.mem_append, hne]

/-- Witness for C3: with a concrete inbound header set containing Cookie,
Origin and a non-empty X-API-Key, the key header is forwarded. -/
theorem outbound_headers_allowlisted_witness :
    ("X-API-Key", "k1") ∈
      (outboundRequest "http://up" Method.POST
        [("Cookie", "secret"), ("Origin", "http://o"), ("X-API-Key", "k1")] []).headers :=
  (outbound_headers_allowlisted "http://up" Method.POST
    [("Cookie", "secret"), ("Origin", "http://o"), ("X-API-Key", "k1")] []).2
    "k1" (by decide) (by decide)

/-- C4: if the environment variable RELAY_UPSTREAM is unset or empty at
startup, module initialization raises a fatal `RuntimeError` and the proxy
refuses to start; if it is set to a non-empty value, startup proceeds with
that value. -/
theorem startup_requires_relay_upstream :
    relayUpstreamStartup none =
      .error "RELAY_UPSTREAM must be set for proxy mode (e.g. http://localhost:8001)" ∧
    relayUpstreamStartup (some "") =
      .error "RELAY_UPSTREAM must be set for proxy mode (e.g. http://localhost:8001)" ∧
    ∀ s : String, s ≠ "" → relayUpstreamStartup (some s) = .ok s := by
  refine ⟨rfl, rfl, ?_⟩
  intro s hs
  simp [relayUpstreamStartup, hs]

/-- Witness for C4 at the concrete value `http://localhost:8001`. -/
theorem startup_requires_relay_upstream_witness :
    relayUpstreamStartup (some "http://localhost:8001") = .ok "http://localhost:8001" :=
  startup_requires_relay_upstream.2.2 "http://localhost:8001" (by decide)

/-- C7 counterexample: the claim that the counters can never go negative or
decrease fails on the code, because `increment_api_calls` accepts any `int`
amount: calling it with `-1` from the initial zero state leaves
`api_calls_total` at `-1`, which is negative and strictly below its previous
value. -/
theorem metrics_negative_amount_counterexample :
    (runMetricsOps initialMetrics [MetricsOp.incApi (-1)]).api_calls_total = -1 ∧
    (runMetricsOps initialMetrics [MetricsOp.incApi (-1)]).api_calls_total <
      initialMetrics.api_calls_total ∧
    ¬ 0 ≤ (runMetricsOps initialMetrics [MetricsOp.incApi (-1)]).api_calls_total := by
  refine ⟨rfl, by decide, by decide⟩

/-- C7 (amended): after every sequence of `increment_api_calls` /
`increment_ws_connections` calls with non-negative amounts, starting from the
initial zero state, both counters are non-negative; and no such call
decreases either counter. -/
theorem metrics_counters_nonneg_of_nonneg_amounts (ops : List MetricsOp)
    (h : ∀ op ∈ ops, 0 ≤ metricsOpAmount op) :
    0 ≤ (runMetricsOps initialMetrics ops).api_calls_total ∧
    0 ≤ (runMetricsOps initialMetrics ops).ws_connections_total ∧
    ∀ (m : Metrics) (op : MetricsOp), 0 ≤ metricsOpAmount op →
      m.api_calls_total ≤ (applyMetricsOp m op).api_calls_total ∧
      m.ws_connections_total ≤ (applyMetricsOp m op).ws_connections_total := by
  have hrun := runMetricsOps_le ops initialMetrics h
  refine ⟨hrun.1, hrun.2, ?_⟩
  intro m op h0
  cases op <;>
    simp only [applyMetricsOp, increment_api_calls, increment_ws_connections,
      metricsOpAmount] at h0 ⊢ <;>
    omega

/-- Witness for C7 (amended) on the concrete call sequence
`increment_api_calls(1); increment_ws_connections(2)`. -/
theorem metrics_counters_nonneg_of_nonneg_amounts_witness :
    0 ≤ (runMetricsOps initialMetrics [MetricsOp.incApi 1, MetricsOp.incWs 2]).api_calls_total ∧
    0 ≤ (runMetricsOps initialMetrics [MetricsOp.incApi 1, MetricsOp.incWs 2]).ws_connections_total :=
  ⟨(metrics_counters_nonneg_of_nonneg_amounts _ (by decide)).1,
   (metrics_counters_nonneg_of_nonneg_amounts _ (by decide)).2.1⟩

/-- C5: the allowed-origin list built at startup from the comma-separated
`FRONTEND_ORIGIN` value consists of the environment-supplied entries
(trimmed, empties dropped, in first-occurrence order, each exactly once)
followed by exactly those of the five default local origins not already
present, appended in their fixed order; the resulting list has no
duplicates. -/
theorem allowed_origins_construction (frontend_origin : String) :
    ALLOWED_ORIGINS frontend_origin =
      envOrigins frontend_origin ++
        DEFAULT_LOCAL_ORIGINS.filter
          (fun d => decide (¬ d ∈ envOrigins frontend_origin)) ∧
    (ALLOWED_ORIGINS frontend_origin).Nodup ∧
    envOrigins frontend_origin =
      specFirstDedup
        (((pySplitComma frontend_origin).map pyStrip).filter
          (fun p => decide (p ≠ ""))) := by
  have henv : envOrigins frontend_origin =
      specFirstDedup
        (((pySplitComma frontend_origin).map pyStrip).filter
          (fun p => decide (p ≠ ""))) := by
    unfold envOrigins
    rw [foldl_appendOrigin, foldl_appendFallback, List.nil_append]
    congr 1
    apply List.filter_eq_self.2
    intro a _
    simp
  have hmain : ALLOWED_ORIGINS frontend_origin =
      envOrigins frontend_origin ++
        DEFAULT_LOCAL_ORIGINS.filter
          (fun d => decide (¬ d ∈ envOrigins frontend_origin)) := by
    unfold ALLOWED_ORIGINS
    rw [foldl_appendFallback]
    congr 1
    apply specFirstDedup_of_nodup
    exact List.Nodup.filter _ (by decide)
  refine ⟨hmain, ?_, henv⟩
  rw [hmain]
  apply List.Nodup.append
  · rw [henv]
    exact specFirstDedup_nodup _
  · exact List.Nodup.filter _ (by decide)
  · intro a ha hb
    have := (List.mem_filter.1 hb).2
    simp only [decide_eq_true_eq] at this
    exact this ha

/-- C6: for every counter state with `api_calls_total = N` and
`ws_connections_total = M`, `get_metrics_text()` returns exactly the
eight-line document of §4.2: HELP line, TYPE line, `relay_api_calls_total N`,
a blank line, the same three-line block for `relay_ws_connections_total M`,
and a trailing blank line (the lone `"\n"` after `toString N` below is that
fourth, blank line's separator; the final `"\n"` is the trailing blank
line). -/
theorem metrics_text_format (N M : Int) :
    get_metrics_text ⟨N, M⟩ =
      "# HELP relay_api_calls_total Number of /api/execute_method calls received\n# TYPE relay_api_calls_total counter\nrelay_api_calls_total "
        ++ toString N
        ++ "\n"
        ++ "\n# HELP relay_ws_connections_total Number of WebSocket connections accepted\n# TYPE relay_ws_connections_total counter\nrelay_ws_connections_total "
        ++ toString M
        ++ "\n" := by
  simp [get_metrics_text, pyJoin, ← String.append_assoc]

/-- C8 (code bug): with the Python value `None` stored under key `k`, the key
is present, `delete("k")` does remove it (a subsequent `get` returns the
default), yet the method returns `False`, contradicting both the claim and
the method's own docstring ("Returns True if deleted"). -/
theorem delete_returns_false_on_stored_none :
    "k" ∈ ((MemoryManager.empty Int).set "k" none).keys ∧
    (((MemoryManager.empty Int).set "k" none).delete "k").1 = false ∧
    ((((MemoryManager.empty Int).set "k" none).delete "k").2).get "k" (some 7) = some 7 ∧
    ((((MemoryManager.empty Int).set "k" none).delete "k").2).keys = [] ∧
    ∀ (m : MemoryManager Int) (key : String) (v : Int),
      ((m.set key (some v)).delete key).1 = true := by
  refine ⟨by decide, by decide, by decide, by decide, ?_⟩
  intro m key v
  simp [MemoryManager.set, MemoryManager.delete, pyDictGet_pyDictSet_self]

/-- C9: storing agent state and loading it back returns the stored record,
and loading the state of an agent whose derived key was never stored returns
`None`. -/
theorem agent_state_roundtrip {α : Type} (m : MemoryManager α) (agent_id : String)
    (data : α) :
    load_agent_state (store_agent_state m agent_id data) agent_id = some data ∧
    ∀ a : String, ¬ agent_state_key a ∈ m.keys → load_agent_state m a = none := by
  constructor
  · simp [load_agent_state, store_agent_state, MemoryManager.get_set_self]
  · intro a ha
    simp [load_agent_state, MemoryManager.get,
      pyDictGet_eq_none_of_not_mem_keys (d := m.store) ha]

/-- Witness for C9 at a concrete store, agent id and record. -/
theorem agent_state_roundtrip_witness :
    load_agent_state (store_agent_state (MemoryManager.empty Int) "a1" 1) "a1" = some 1 ∧
    load_agent_state (MemoryManager.empty Int) "a2" = none :=
  ⟨(agent_state_roundtrip (MemoryManager.empty Int) "a1" 1).1,
   (agent_state_roundtrip (MemoryManager.empty Int) "a1" 1).2 "a2" (by decide)⟩

/-- C10: the derived key `agent:<id>:state` is injective in the id, storing
one agent's state leaves every other agent's loaded state unchanged, and
leaves the value of every memory-store key other than the derived key
unchanged. -/
theorem agent_state_frame {α : Type} (m : MemoryManager α) (a1 a2 k : String)
    (data : α) (d : Option α) :
    (agent_state_key a1 = agent_state_key a2 → a1 = a2) ∧
    (a1 ≠ a2 →
      load_agent_state (store_agent_state m a1 data) a2 = load_agent_state m a2) ∧
    (k ≠ agent_state_key a1 →
      (store_agent_state m a1 data).get k d = m.get k d) := by
  refine ⟨agent_state_key_inj a1 a2, ?_, ?_⟩
  · intro hne
    have hkey : agent_state_key a2 ≠ agent_state_key a1 :=
      fun h => hne (agent_state_key_inj a2 a1 h).symm
    simp [load_agent_state, store_agent_state, MemoryManager.get_set_ne _ _ _ _ _ hkey]
  · intro hk
    exact MemoryManager.get_set_ne _ _ _ _ _ hk

/-- Witness for C10 at concrete distinct agent ids and a concrete other key. -/
theorem agent_state_frame_witness :
    load_agent_state (store_agent_state (MemoryManager.empty Int) "a1" 5) "a2" =
      load_agent_state (MemoryManager.empty Int) "a2" ∧
    (store_agent_state (MemoryManager.empty Int) "a1" 5).get "other" none =
      (MemoryManager.empty Int).get "other" none :=
  ⟨(agent_state_frame (MemoryManager.empty Int) "a1" "a2" "other" 5 none).2.1 (by decide),
   (agent_state_frame (MemoryManager.empty Int) "a1" "a2" "other" 5 none).2.2 (by decide)⟩

end RelayProxy
